import Mathlib

/-!
# scripts/DeployEcosystem.js

A shallow embedding of the deployment script.  The script is a straight-line
`async` function: it asks the artifact loader for seven artifacts, resolves the
oracle configuration from the environment string, links libraries, deploys the
contracts one after the other (storing each result in a module-level global),
optionally funds the collateral valuator, deploys the controller and, for a
local environment, registers two markets.

Every call that leaves the script (loader, truffle artifact methods and the
helpers of `./ContractUtils`) is an operation answered by a `World`; the answer
may depend on everything that was issued before.  A JavaScript exception is an
`Except.error`; `await` is sequencing.  One call, the `linkContract` of line 50,
is made without `await`: the script goes on as soon as the call has returned,
whatever becomes of a promise the call may have handed back.
-/

namespace DeployEcosystem

/-! ## Values -/

/-- A contract object; the script only ever reads its `address` property. -/
structure Contract where
  address : String
deriving DecidableEq, Repr

/-- What a global address variable holds, and what an awaited call resolves to:
`null` or a contract object. -/
inductive Ref where
  | null
  | contract (c : Contract)
deriving DecidableEq, Repr

/-- An element of a parameter array handed to `deployContract` / `callContract`. -/
inductive Arg where
  | undefined
  | str (s : String)
  | num (n : Nat)
  | bn (n : Nat)
deriving DecidableEq, Repr

/-- A thrown JavaScript value: the `TypeError` of the runtime when a property of
`null` is read, or whatever a collaborator throws (rejects with). -/
inductive Error where
  | typeError (property : String)
  | thrown (message : String)
deriving DecidableEq, Repr

/-- The operations the script issues to its collaborators. -/
inductive Op where
  | fromArtifact (name : String)
  | detectNetwork (artifact : String)
  | link (artifact : String) (libraryName : String) (address : String)
  | linkContract (artifact : String) (libraryName : String) (address : String)
  | deployContract (artifact : String) (params : List Arg) (deployer : String) (gasLimit : Nat)
  | callContract (target : Ref) (methodName : String) (params : List Arg) (deployer : String)
      (gasLimit : Nat)
deriving DecidableEq, Repr

/-- The module-level globals of lines 5-12. -/
structure Globals where
  interestRateImplV1 : Ref
  chainlinkCollateralValuator : Ref
  underlyingTokenValuatorImplV1 : Ref
  delayedOwner : Ref
  dmmEtherFactory : Ref
  dmmTokenFactory : Ref
  dmmBlacklist : Ref
  dmmController : Ref
deriving DecidableEq, Repr

/-- The six address properties of the object literal assigned to `module.exports`
(lines 153-161); the seventh property is the function `deployEcosystem` itself. -/
structure Exports where
  interestRateImplV1 : Ref
  chainlinkCollateralValuator : Ref
  underlyingTokenValuatorImplV1 : Ref
  dmmTokenFactory : Ref
  dmmBlacklist : Ref
  dmmController : Ref
deriving DecidableEq, Repr

/-- Globals the script reads but never defines (the `require` of line 1 is
commented out): they are set by the token/library deployment that runs first. -/
structure Upstream where
  dai : Contract
  link : Contract
  usdc : Contract
  weth : Contract
  dmmTokenLibrary : Contract
  stringHelpers : Contract
deriving DecidableEq, Repr

/-- One entry of the trace of a run: the position of the operation in the run
(0 for the first one), the globals as they were when it was issued, the
operation, and what the script got back from the call (`response`: a value, or
what was thrown).  `settles` is about what the script did not wait for: `some s`
when the call was made without `await` and handed back a promise, which settles
as `s` at some time after the script has gone on; `none` otherwise (the call was
awaited, or it handed back no promise). -/
structure Event where
  seq : Nat
  globals : Globals
  op : Op
  response : Except Error Ref
  settles : Option (Except Error Unit)

/-- The behaviour of the collaborators, given the operations issued so far
(oldest first).  `answer` is what the caller gets from a call: for an awaited
call what the awaited promise settles to (a value, or the rejection, which
`await` throws); for a call made without `await` what the call itself does (it
returns, or throws on the spot).  `pending` is read for a call made without
`await` only: `some s` when the call hands back a promise, with `s` what that
promise settles to later; `none` when it hands back no promise, its work done
when it returns. -/
structure World where
  answer : List Op → Op → Except Error Ref
  pending : List Op → Op → Option (Except Error Unit)

/-- The state a run threads through: globals, the exported object, the trace. -/
structure State where
  globals : Globals
  exports : Exports
  trace : List Event

/-- The operations of a trace, oldest first. -/
def history (s : State) : List Op := s.trace.map Event.op

/-! ## The script monad -/

/-- A piece of the script: given the collaborators and the current state it
returns a value or throws, and leaves a state behind either way. -/
def Script (α : Type) : Type := World → State → Except Error α × State

/-- Sequencing (`await a; b`): an exception skips everything that follows. -/
def Script.bind {α β : Type} (m : Script α) (f : α → Script β) : Script β :=
  fun w s =>
    match (m w s).1 with
    | .ok a => f a w (m w s).2
    | .error e => (.error e, (m w s).2)

instance : Monad Script where
  pure a := fun _ s => (.ok a, s)
  bind := Script.bind

/-- Issue an operation and await it: the collaborators answer it, the trace
records it; nothing is left to settle. -/
def issue (op : Op) : Script Ref :=
  fun w s =>
    (w.answer (history s) op,
      { s with trace := s.trace ++
          [⟨s.trace.length, s.globals, op, w.answer (history s) op, none⟩] })

/-- Issue an operation without awaiting it: the script goes on when the call
returns, and stops when the call throws on the spot.  A promise handed back is
dropped: how it settles is recorded in the trace and has no effect on the run. -/
def issueUnawaited (op : Op) : Script Ref :=
  fun w s =>
    (w.answer (history s) op,
      { s with trace := s.trace ++
          [⟨s.trace.length, s.globals, op, w.answer (history s) op,
            match w.answer (history s) op with
            | .ok _ => w.pending (history s) op
            | .error _ => none⟩] })

/-- Read the globals. -/
def getGlobals : Script Globals := fun _ s => (.ok s.globals, s)

/-- Assign to globals. -/
def setGlobals (f : Globals → Globals) : Script Unit :=
  fun _ s => (.ok (), { s with globals := f s.globals })

/-- Throw. -/
def throw {α : Type} (e : Error) : Script α := fun _ s => (.error e, s)

/-- The expression `r.address`: a `TypeError` when `r` is `null`. -/
def address (r : Ref) : Script String :=
  match r with
  | .null => throw (.typeError "address")
  | .contract c => pure c.address

/-! ## Collaborator calls -/

/-- The call `loader.truffle.fromArtifact(name)`; an artifact is identified by its name. -/
def fromArtifact (name : String) : Script String := do
  let _ ← issue (.fromArtifact name)
  pure name

/-- The call `await artifact.detectNetwork()`. -/
def detectNetwork (artifact : String) : Script Unit := do
  let _ ← issue (.detectNetwork artifact)
  pure ()

/-- The call `await artifact.link(libraryName, address)`. -/
def link (artifact libraryName address : String) : Script Unit := do
  let _ ← issue (.link artifact libraryName address)
  pure ()

/-- The call `linkContract(artifact, libraryName, address)` of `./ContractUtils`
(line 50), made without `await`: the script goes on once the call has returned,
without waiting for a promise it may have handed back. -/
def linkContract (artifact libraryName address : String) : Script Unit := do
  let _ ← issueUnawaited (.linkContract artifact libraryName address)
  pure ()

/-- The call `await deployContract(artifact, params, deployer, gasLimit)`. -/
def deployContract (artifact : String) (params : List Arg) (deployer : String)
    (gasLimit : Nat) : Script Ref :=
  issue (.deployContract artifact params deployer gasLimit)

/-- The call `await callContract(target, methodName, params, deployer, gasLimit)`. -/
def callContract (target : Ref) (methodName : String) (params : List Arg) (deployer : String)
    (gasLimit : Nat) : Script Unit := do
  let _ ← issue (.callContract target methodName params deployer gasLimit)
  pure ()

/-- A `console.log(label, r.address)`: nothing but the property read can fail. -/
def consoleLogAddress (r : Ref) : Script Unit := do
  let _ ← address r
  pure ()

/-! ## Constants (lines 14-16) -/

/-- The constant `new BN('100000000000000000')`, 0.1. -/
def _0_1 : Nat := 100000000000000000

/-- The constant `new BN('500000000000000000')`, 0.5. -/
def _05 : Nat := 500000000000000000

/-- The constant `new BN('1000000000000000000')`, 1.0. -/
def _1 : Nat := 1000000000000000000

/-! ## The script -/

/-- Lines 27-41: the variables `oracleAddress` and `chainlinkJobId` after the
`if` chain.  In the last branch an `Error` object is constructed and dropped, so
both variables keep their initial value `undefined`. -/
def oracleConfig (environment : String) : Arg × Arg :=
  if environment = "LOCAL" then
    (.str "0x0000000000000000000000000000000000000000",
     .str "0x0000000000000000000000000000000000000000000000000000000000000000")
  else if environment = "TESTNET" then
    (.str "0x7AFe1118Ea78C1eae84ca8feE5C65Bc76CcF879e",
     .str "0x00000000000000000000000000000000d4b380b30cb64722b8843ead232985c3")
  else if environment = "PRODUCTION" then
    (.str "0x0000000000000000000000000000000000000000",
     .str "0x0000000000000000000000000000000000000000000000000000000000000000")
  else
    (.undefined, .undefined)

/-- Lines 113-151. -/
def addMarketsIfLocal (up : Upstream) (environment : String) (deployer : String) :
    Script Unit := do
  if environment ≠ "LOCAL" then
    pure ()
  else
    let g ← getGlobals
    callContract g.dmmTokenFactory "transferOwnership" [.str (← address g.dmmController)]
      deployer 300000
    let g ← getGlobals
    callContract g.dmmController "addMarket"
      [.str up.dai.address, .str "mDAI", .str "DMM: DAI", .num 18, .bn _0_1, .bn _0_1,
        .bn (_1 * 100)]
      deployer 6000000
    let g ← getGlobals
    callContract g.dmmController "addMarket"
      [.str up.usdc.address, .str "mUSDC", .str "DMM: USDC", .num 6, .bn 100000, .bn 100000,
        .bn 100000000]
      deployer 6000000

/-- Lines 18-111. -/
def deployEcosystem (up : Upstream) (environment : String) (deployer : String) :
    Script Unit := do
  let ChainlinkCollateralValuator ← fromArtifact "ChainlinkCollateralValuator"
  let DmmBlacklistable ← fromArtifact "DmmBlacklistable"
  let InterestRateImplV1 ← fromArtifact "InterestRateImplV1"
  let DmmController ← fromArtifact "DmmController"
  let DmmEtherFactory ← fromArtifact "DmmEtherFactory"
  let DmmTokenFactory ← fromArtifact "DmmTokenFactory"
  let UnderlyingTokenValuatorImplV1 ← fromArtifact "UnderlyingTokenValuatorImplV1"

  let oracleAddress := (oracleConfig environment).1
  let chainlinkJobId := (oracleConfig environment).2

  detectNetwork DmmEtherFactory
  detectNetwork DmmTokenFactory
  detectNetwork UnderlyingTokenValuatorImplV1

  link DmmEtherFactory "DmmTokenLibrary" up.dmmTokenLibrary.address
  link DmmTokenFactory "DmmTokenLibrary" up.dmmTokenLibrary.address

  linkContract UnderlyingTokenValuatorImplV1 "StringHelpers" up.stringHelpers.address

  let r ← deployContract InterestRateImplV1 [] deployer 4000000
  setGlobals fun g => { g with interestRateImplV1 := r }

  let r ← deployContract ChainlinkCollateralValuator
    [.str up.link.address, .bn _0_1, chainlinkJobId] deployer 4000000
  setGlobals fun g => { g with chainlinkCollateralValuator := r }

  let r ← deployContract UnderlyingTokenValuatorImplV1
    [.str up.dai.address, .str up.usdc.address] deployer 4000000
  setGlobals fun g => { g with underlyingTokenValuatorImplV1 := r }

  let r ← deployContract DmmEtherFactory [.str up.weth.address] deployer 6000000
  setGlobals fun g => { g with dmmEtherFactory := r }

  let r ← deployContract DmmTokenFactory [] deployer 6000000
  setGlobals fun g => { g with dmmTokenFactory := r }

  let r ← deployContract DmmBlacklistable [] deployer 4000000
  setGlobals fun g => { g with dmmBlacklist := r }

  if environment = "TESTNET" ∨ environment = "PRODUCTION" then
    let _10 := _1 * 10
    let g ← getGlobals
    callContract (.contract up.link) "transfer"
      [.str (← address g.chainlinkCollateralValuator), .bn _10] deployer 300000
    let g ← getGlobals
    callContract g.chainlinkCollateralValuator "getCollateralValue" [oracleAddress]
      deployer 1000000

  let g ← getGlobals
  let r ← deployContract DmmController
    [ .str (← address g.interestRateImplV1),
      .str (← address g.chainlinkCollateralValuator),
      .str (← address g.underlyingTokenValuatorImplV1),
      .str (← address g.dmmEtherFactory),
      .str (← address g.dmmTokenFactory),
      .str (← address g.dmmBlacklist),
      .bn _1,
      .bn _05,
      .str up.weth.address ]
    deployer 4000000
  setGlobals fun g => { g with dmmController := r }

  addMarketsIfLocal up environment deployer

  let g ← getGlobals
  consoleLogAddress g.interestRateImplV1
  consoleLogAddress g.chainlinkCollateralValuator
  consoleLogAddress g.underlyingTokenValuatorImplV1
  consoleLogAddress g.dmmTokenFactory
  consoleLogAddress g.dmmBlacklist
  consoleLogAddress g.dmmController

/-- Lines 5-12 and 153-161: the state once the module is loaded.  The globals are
`null`; the object literal of `module.exports` is built from them right then. -/
def moduleLoaded : State :=
  let g : Globals :=
    { interestRateImplV1 := .null
      chainlinkCollateralValuator := .null
      underlyingTokenValuatorImplV1 := .null
      delayedOwner := .null
      dmmEtherFactory := .null
      dmmTokenFactory := .null
      dmmBlacklist := .null
      dmmController := .null }
  { globals := g
    exports :=
      { interestRateImplV1 := g.interestRateImplV1
        chainlinkCollateralValuator := g.chainlinkCollateralValuator
        underlyingTokenValuatorImplV1 := g.underlyingTokenValuatorImplV1
        dmmTokenFactory := g.dmmTokenFactory
        dmmBlacklist := g.dmmBlacklist
        dmmController := g.dmmController }
    trace := [] }

/-- A run of `deployEcosystem` in a freshly loaded module. -/
def run (up : Upstream) (w : World) (environment deployer : String) :
    Except Error Unit × State :=
  deployEcosystem up environment deployer w moduleLoaded

/-! ## Observations on traces -/

/-- Is the operation a `deployContract` call? -/
def Op.isDeployContract : Op → Bool
  | .deployContract _ _ _ _ => true
  | _ => false

/-- Is the operation a `callContract` call? -/
def Op.isCallContract : Op → Bool
  | .callContract _ _ _ _ _ => true
  | _ => false

/-- Is the operation a `callContract` of the given method? -/
def Op.isCallOf (methodName : String) : Op → Bool
  | .callContract _ m _ _ _ => m == methodName
  | _ => false

/-- The events of a trace whose operation is a `callContract` of the given method. -/
def callsOf (methodName : String) (t : List Event) : List Event :=
  t.filter fun ev => ev.op.isCallOf methodName

/-- An operation succeeded: the collaborators answered without throwing, and a
`deployContract` resolved to a contract object. -/
def Event.succeeded (ev : Event) : Bool :=
  match ev.response with
  | .error _ => false
  | .ok .null => !ev.op.isDeployContract
  | .ok (.contract _) => true

/-- Is the operation a `deployContract` of the given artifact? -/
def Op.isDeployOf (artifact : String) : Op → Bool
  | .deployContract a _ _ _ => a == artifact
  | _ => false

/-- The value was returned by a `deployContract` of the artifact that was issued,
and resolved, in the trace `t` before the event `ev` was issued. -/
def SetByEarlierDeploy (t : List Event) (ev : Event) (artifact : String) (value : Ref) : Prop :=
  ∃ e ∈ t, e.seq < ev.seq ∧ e.op.isDeployOf artifact = true ∧ e.response = .ok value

/-! ## Sample inputs -/

/-- Upstream contracts with pairwise different addresses. -/
def sampleUpstream : Upstream :=
  { dai := ⟨"0xDA1"⟩
    link := ⟨"0x514"⟩
    usdc := ⟨"0xA0b"⟩
    weth := ⟨"0xC02"⟩
    dmmTokenLibrary := ⟨"0x71b"⟩
    stringHelpers := ⟨"0x57f"⟩ }

/-- Collaborators that never fail: a deploy resolves to a contract whose address
is the name of the artifact, every other operation resolves to `null`. -/
def allSucceed : World :=
  { answer := fun _ op =>
      match op with
      | .deployContract artifact _ _ _ => .ok (.contract ⟨artifact⟩)
      | _ => .ok .null
    pending := fun _ _ => none }

/-- Collaborators for which the deploy of `InterestRateImplV1` resolves to `null`
and the deploy of `ChainlinkCollateralValuator` is rejected. -/
def nullThenReject : World :=
  { answer := fun _ op =>
      match op with
      | .deployContract "InterestRateImplV1" _ _ _ => .ok .null
      | .deployContract "ChainlinkCollateralValuator" _ _ _ => .error (.thrown "revert")
      | .deployContract artifact _ _ _ => .ok (.contract ⟨artifact⟩)
      | _ => .ok .null
    pending := fun _ _ => none }

/-- Collaborators that answer every call like `allSucceed`, with a `linkContract`
that is asynchronous: it hands back a promise, which is rejected later. -/
def linkRejectedLater : World :=
  { answer := allSucceed.answer
    pending := fun _ op =>
      match op with
      | .linkContract _ _ _ => some (.error (.thrown "LinkError"))
      | _ => none }

/-! ## What is known about a trace half way through a run -/

/-- A property of an event in a trace that stays true when the trace grows. -/
def Mono (Ψ : List Event → Event → Prop) : Prop :=
  ∀ T T' ev, (∀ e ∈ T, e ∈ T') → Ψ T ev → Ψ T' ev

/-- The knowledge carried along a run: the trace `t` has `n` events, numbered
below `n`; the events selected by `keep` are exactly those of `L`; and every
event of the trace satisfies `Ψ`. -/
def Inv (keep : Event → Bool) (Ψ : List Event → Event → Prop) (n : Nat) (L t : List Event) :
    Prop :=
  t.length = n ∧ (∀ e ∈ t, e.seq < n) ∧ t.filter keep = L ∧ ∀ ev ∈ t, Ψ t ev

/-- Did the collaborators throw? -/
def Event.failed (ev : Event) : Bool :=
  match ev.response with
  | .error _ => true
  | .ok _ => false

/-! ## Library bindings (claim C9) -/

/-- The two bindings the script awaits (lines 47-48). -/
def awaitedBindings (up : Upstream) : List Op :=
  [ .link "DmmEtherFactory" "DmmTokenLibrary" up.dmmTokenLibrary.address,
    .link "DmmTokenFactory" "DmmTokenLibrary" up.dmmTokenLibrary.address ]

/-- The binding the script does not await (line 50). -/
def unawaitedBinding (up : Upstream) : Op :=
  .linkContract "UnderlyingTokenValuatorImplV1" "StringHelpers" up.stringHelpers.address

/-- The three library bindings of lines 47-50. -/
def bindings (up : Upstream) : List Op :=
  awaitedBindings up ++ [unawaitedBinding up]

/-- Is the operation a library binding (`link` or `linkContract`)? -/
def Op.isBinding : Op → Bool
  | .link _ _ _ => true
  | .linkContract _ _ _ => true
  | _ => false

/-- The operation had run to completion when the script went on: the call had
returned, and nothing was left to settle. -/
def Event.completed (ev : Event) : Bool :=
  match ev.response, ev.settles with
  | .ok _, none => true
  | _, _ => false

/-- The operation failed after the script had gone on: the promise the call
handed back is rejected. -/
def Event.failedLater (ev : Event) : Bool :=
  match ev.settles with
  | some (.error _) => true
  | _ => false

/-- The binding `b` was issued in `T` before the event `ev`, and had run to
completion. -/
def BoundBefore (T : List Event) (ev : Event) (b : Op) : Prop :=
  ∃ e ∈ T, e.seq < ev.seq ∧ e.op = b ∧ e.completed = true

/-- The binding `b` was issued in `T` before the event `ev`, and the call had
returned; whether its work was done by then is another matter. -/
def IssuedBefore (T : List Event) (ev : Event) (b : Op) : Prop :=
  ∃ e ∈ T, e.seq < ev.seq ∧ e.op = b ∧ ∃ v, e.response = .ok v

/-- Claim C9 as stated, for one run: every `deployContract` is preceded by the
three bindings, each run to completion; and when a binding fails, at the call or
after it, no `deployContract` is issued. -/
def BindingsCompleteBeforeDeploys (up : Upstream) (w : World)
    (environment deployer : String) : Prop :=
  (∀ ev ∈ (run up w environment deployer).2.trace, ev.op.isDeployContract = true →
    ∀ b ∈ bindings up, BoundBefore (run up w environment deployer).2.trace ev b) ∧
  (∀ e ∈ (run up w environment deployer).2.trace, e.op ∈ bindings up →
    (e.failed || e.failedLater) = true →
      ∀ ev ∈ (run up w environment deployer).2.trace, ev.op.isDeployContract = false)

/-- If `ev` is a `deployContract`: the two awaited bindings ran to completion
before it, and the call of the third one had returned. -/
def AllBound (up : Upstream) (T : List Event) (ev : Event) : Prop :=
  ev.op.isDeployContract = true →
    (∀ b ∈ awaitedBindings up, BoundBefore T ev b) ∧ IssuedBefore T ev (unawaitedBinding up)

/-- The events followed for claim C9: bindings and deploys. -/
def keepBindingsAndDeploys (ev : Event) : Bool :=
  ev.op.isBinding || ev.op.isDeployContract

/-! ## Prerequisites of the controller (claims C3 and C8) -/

/-- If `ev` is the `deployContract` of `DmmController`: the six prerequisite
globals were non-null when it was issued, each set by an earlier deploy. -/
def ControllerGuarded (T : List Event) (ev : Event) : Prop :=
  ev.op.isDeployOf "DmmController" = true →
    (ev.globals.interestRateImplV1 ≠ .null ∧
      ev.globals.chainlinkCollateralValuator ≠ .null ∧
      ev.globals.underlyingTokenValuatorImplV1 ≠ .null ∧
      ev.globals.dmmEtherFactory ≠ .null ∧
      ev.globals.dmmTokenFactory ≠ .null ∧
      ev.globals.dmmBlacklist ≠ .null) ∧
    SetByEarlierDeploy T ev "InterestRateImplV1" ev.globals.interestRateImplV1 ∧
    SetByEarlierDeploy T ev "ChainlinkCollateralValuator" ev.globals.chainlinkCollateralValuator ∧
    SetByEarlierDeploy T ev "UnderlyingTokenValuatorImplV1"
      ev.globals.underlyingTokenValuatorImplV1 ∧
    SetByEarlierDeploy T ev "DmmEtherFactory" ev.globals.dmmEtherFactory ∧
    SetByEarlierDeploy T ev "DmmTokenFactory" ev.globals.dmmTokenFactory ∧
    SetByEarlierDeploy T ev "DmmBlacklistable" ev.globals.dmmBlacklist

/-- The events followed for the claims on deploys. -/
def keepDeploys (ev : Event) : Bool := ev.op.isDeployContract

/-- If `ev` is the `deployContract` of `DmmController`: its nine constructor
arguments, the first six being the addresses returned by the earlier deploys. -/
def ControllerArgs (up : Upstream) (T : List Event) (ev : Event) : Prop :=
  ∀ ps dp gl, ev.op = .deployContract "DmmController" ps dp gl →
    ∃ c1 c2 c3 c4 c5 c6 : Contract,
      SetByEarlierDeploy T ev "InterestRateImplV1" (.contract c1) ∧
      SetByEarlierDeploy T ev "ChainlinkCollateralValuator" (.contract c2) ∧
      SetByEarlierDeploy T ev "UnderlyingTokenValuatorImplV1" (.contract c3) ∧
      SetByEarlierDeploy T ev "DmmEtherFactory" (.contract c4) ∧
      SetByEarlierDeploy T ev "DmmTokenFactory" (.contract c5) ∧
      SetByEarlierDeploy T ev "DmmBlacklistable" (.contract c6) ∧
      ps = [.str c1.address, .str c2.address, .str c3.address, .str c4.address,
        .str c5.address, .str c6.address, .bn (10 ^ 18), .bn (5 * 10 ^ 17),
        .str up.weth.address]

/-! ## Oracle configuration (claim C7) -/

/-- The job id is the third constructor argument of the collateral valuator, and
the oracle address the argument of the `getCollateralValue` request. -/
def OracleArgs (up : Upstream) (environment : String) (_T : List Event) (ev : Event) : Prop :=
  (∀ ps dp gl, ev.op = .deployContract "ChainlinkCollateralValuator" ps dp gl →
    ps = [.str up.link.address, .bn (10 ^ 17), (oracleConfig environment).2]) ∧
  (∀ tg ps dp gl, ev.op = .callContract tg "getCollateralValue" ps dp gl →
    ps = [(oracleConfig environment).1])

/-- No event is followed. -/
def keepNone (_ev : Event) : Bool := false

/-! ## Deploy steps and partial failure (claim C2) -/

/-- The seven deploy steps, in the order of the script. -/
inductive Step where
  | interestRate
  | collateralValuator
  | underlyingTokenValuator
  | etherFactory
  | tokenFactory
  | blacklist
  | controller
deriving DecidableEq, Repr

/-- The artifact a step deploys. -/
def Step.artifact : Step → String
  | .interestRate => "InterestRateImplV1"
  | .collateralValuator => "ChainlinkCollateralValuator"
  | .underlyingTokenValuator => "UnderlyingTokenValuatorImplV1"
  | .etherFactory => "DmmEtherFactory"
  | .tokenFactory => "DmmTokenFactory"
  | .blacklist => "DmmBlacklistable"
  | .controller => "DmmController"

/-- The position of a step in the sequence. -/
def Step.index : Step → Nat
  | .interestRate => 1
  | .collateralValuator => 2
  | .underlyingTokenValuator => 3
  | .etherFactory => 4
  | .tokenFactory => 5
  | .blacklist => 6
  | .controller => 7

/-- The global a step assigns. -/
def Step.variable : Step → Globals → Ref
  | .interestRate, g => g.interestRateImplV1
  | .collateralValuator, g => g.chainlinkCollateralValuator
  | .underlyingTokenValuator, g => g.underlyingTokenValuatorImplV1
  | .etherFactory, g => g.dmmEtherFactory
  | .tokenFactory, g => g.dmmTokenFactory
  | .blacklist, g => g.dmmBlacklist
  | .controller, g => g.dmmController

/-- Claim C2 as stated, for one run: when the deploy of a step throws, exactly
the variables of the steps before it are non-null afterwards. -/
def FailureLeavesNonNullPrefix (up : Upstream) (w : World) (environment deployer : String) :
    Prop :=
  ∀ k : Step, ∀ ev ∈ (run up w environment deployer).2.trace,
    ev.op.isDeployOf k.artifact = true → ev.failed = true →
      ∀ j : Step, j.variable (run up w environment deployer).2.globals ≠ .null ↔
        j.index < k.index

/-! ## Market provisioning (claims C5 and C6) -/

/-- If `ev` is an `addMarket` call: it is a call on the controller held by
`dmmController`, and the `transferOwnership` of the token factory to that
controller was issued before it and completed. -/
def MarketAfterOwnership (deployer : String) (T : List Event) (ev : Event) : Prop :=
  ev.op.isCallOf "addMarket" = true →
    ∃ c, ev.globals.dmmController = .contract c ∧
      (∃ ps gl, ev.op = .callContract (.contract c) "addMarket" ps deployer gl) ∧
      ∃ e ∈ T, e.seq < ev.seq ∧
        e.op = .callContract ev.globals.dmmTokenFactory "transferOwnership"
          [.str c.address] deployer 300000 ∧
        ∃ v, e.response = .ok v

/-- The events followed for the claims on calls. -/
def keepCalls (ev : Event) : Bool := ev.op.isCallContract

/-- The registration of the mDAI market (lines 120-134) on the given controller. -/
def addMarketDai (up : Upstream) (controller : Ref) (deployer : String) : Op :=
  .callContract controller "addMarket"
    [.str up.dai.address, .str "mDAI", .str "DMM: DAI", .num 18, .bn (10 ^ 17), .bn (10 ^ 17),
      .bn (100 * 10 ^ 18)]
    deployer 6000000

/-- The registration of the mUSDC market (lines 136-150) on the given controller. -/
def addMarketUsdc (up : Upstream) (controller : Ref) (deployer : String) : Op :=
  .callContract controller "addMarket"
    [.str up.usdc.address, .str "mUSDC", .str "DMM: USDC", .num 6, .bn 100000, .bn 100000,
      .bn 100000000]
    deployer 6000000

/-- If `ev` is the registration of mUSDC: the registration of mDAI on the same
controller was issued before it and completed. -/
def UsdcAfterDai (up : Upstream) (deployer : String) (T : List Event) (ev : Event) : Prop :=
  ∀ controller, ev.op = addMarketUsdc up controller deployer →
    ∃ e ∈ T, e.seq < ev.seq ∧ e.op = addMarketDai up controller deployer ∧
      ∃ v, e.response = .ok v

/-- The events followed for claim C6: the `addMarket` calls. -/
def keepMarkets (ev : Event) : Bool := ev.op.isCallOf "addMarket"

/-! ## Oracle funding (claim C4) -/

/-- The events followed for claim C4: calls, deploys, and whatever threw. -/
def keepCallsDeploysFailures (ev : Event) : Bool :=
  ev.op.isCallContract || ev.op.isDeployContract || ev.failed

/-- The trace of a `LOCAL` run of the sample inputs with collaborators that never fail. -/
def sampleLocalTrace : List Event := (run sampleUpstream allSucceed "LOCAL" "0xD").2.trace

/-- The twentieth operation of that run: the deploy of the controller. -/
def sampleControllerEvent : Event := sampleLocalTrace.get ⟨19, by decide⟩

/-- The trace of a `TESTNET` run of the sample inputs with collaborators that never fail. -/
def sampleTestnetTrace : List Event := (run sampleUpstream allSucceed "TESTNET" "0xD").2.trace

/-! ## Stepping through a run -/

instance : LawfulMonad Script := LawfulMonad.mk' _
  (by
    intro α x; funext w s
    show Script.bind x _ w s = x w s
    unfold Script.bind
    rcases h : x w s with ⟨r, s'⟩
    cases r <;> rfl)
  (by intros; rfl)
  (by
    intro α β γ x f g; funext w s
    show Script.bind (Script.bind x f) g w s = Script.bind x (fun a => Script.bind (f a) g) w s
    unfold Script.bind
    rcases h : x w s with ⟨r, s'⟩
    cases r <;> rfl)

theorem bind_def {α β : Type} (m : Script α) (f : α → Script β) :
    (m >>= f) = Script.bind m f := rfl

/-- An awaited operation either resolves, and the script goes on with the event
recorded, or it throws, and the run ends there. -/
theorem issue_bind_cases {β : Type} {op : Op} {f : Ref → Script β} {w : World} {g : Globals}
    {x : Exports} {t : List Event} {r : Except Error β × State}
    (h : (issue op >>= f) w ⟨g, x, t⟩ = r) :
    (∃ v, f v w ⟨g, x, t ++ [⟨t.length, g, op, .ok v, none⟩]⟩ = r) ∨
    (∃ e, r = (.error e, ⟨g, x, t ++ [⟨t.length, g, op, .error e, none⟩]⟩)) := by
  subst h
  rw [bind_def]
  unfold Script.bind issue history
  cases h : w.answer (t.map Event.op) op with
  | ok v => left; exact ⟨v, rfl⟩
  | error e => right; exact ⟨e, rfl⟩

/-- An operation that is not awaited either returns, and the script goes on with
the event recorded, whatever is still to settle, or it throws on the spot, and
the run ends there. -/
theorem issueUnawaited_bind_cases {β : Type} {op : Op} {f : Ref → Script β} {w : World}
    {g : Globals} {x : Exports} {t : List Event} {r : Except Error β × State}
    (h : (issueUnawaited op >>= f) w ⟨g, x, t⟩ = r) :
    (∃ p v, f v w ⟨g, x, t ++ [⟨t.length, g, op, .ok v, p⟩]⟩ = r) ∨
    (∃ e, r = (.error e, ⟨g, x, t ++ [⟨t.length, g, op, .error e, none⟩]⟩)) := by
  subst h
  rw [bind_def]
  unfold Script.bind issueUnawaited history
  cases h : w.answer (t.map Event.op) op with
  | ok v => left; exact ⟨_, v, rfl⟩
  | error e => right; exact ⟨e, rfl⟩

theorem Inv.nil (keep : Event → Bool) (Ψ : List Event → Event → Prop) : Inv keep Ψ 0 [] [] :=
  ⟨rfl, by simp, rfl, by simp⟩

theorem Inv.snoc {keep : Event → Bool} {Ψ : List Event → Event → Prop} {n : Nat}
    {L t : List Event} (hm : Mono Ψ) (h : Inv keep Ψ n L t) (b : Bool) (ev : Event)
    (hseq : ev.seq = n) (hk : keep ev = b)
    (hΨ : ∀ T, (∀ e ∈ L, e ∈ T) → ev ∈ T → Ψ T ev) :
    Inv keep Ψ (n + 1) (cond b (L ++ [ev]) L) (t ++ [ev]) := by
  obtain ⟨hl, hs, hf, ha⟩ := h
  refine ⟨by simp [hl], ?_, ?_, ?_⟩
  · intro e he
    rcases List.mem_append.1 he with he | he
    · exact Nat.lt_succ_of_lt (hs e he)
    · rw [List.mem_singleton.1 he, hseq]; exact Nat.lt_succ_self n
  · cases b <;> simp [List.filter_append, hf, hk]
  · intro e he
    rcases List.mem_append.1 he with he | he
    · exact hm t _ e (fun e' he' => List.mem_append_left _ he') (ha e he)
    · rw [List.mem_singleton.1 he]
      refine hΨ _ (fun e' he' => List.mem_append_left _ ?_) (by simp)
      rw [← hf] at he'
      exact (List.mem_filter.1 he').1

/-- One awaited operation, with the knowledge about the trace carried over. -/
theorem issue_bind_inv {β : Type} {keep : Event → Bool} {Ψ : List Event → Event → Prop}
    {n : Nat} {L t : List Event} {op : Op} {f : Ref → Script β} {w : World} {g : Globals}
    {x : Exports} {r : Except Error β × State}
    (hm : Mono Ψ) (hI : Inv keep Ψ n L t) (hr : (issue op >>= f) w ⟨g, x, t⟩ = r)
    (b₁ b₂ : Bool)
    (hk₁ : ∀ v, keep ⟨n, g, op, .ok v, none⟩ = b₁)
    (hk₂ : ∀ e, keep ⟨n, g, op, .error e, none⟩ = b₂)
    (hΨ : ∀ resp T, (∀ e ∈ L, e ∈ T) → (⟨n, g, op, resp, none⟩ : Event) ∈ T →
      Ψ T ⟨n, g, op, resp, none⟩) :
    (∃ v t', Inv keep Ψ (n + 1) (cond b₁ (L ++ [⟨n, g, op, .ok v, none⟩]) L) t' ∧
        f v w ⟨g, x, t'⟩ = r) ∨
    (∃ e t', Inv keep Ψ (n + 1) (cond b₂ (L ++ [⟨n, g, op, .error e, none⟩]) L) t' ∧
        r = (.error e, ⟨g, x, t'⟩)) := by
  have hl : t.length = n := hI.1
  rcases issue_bind_cases hr with ⟨v, h⟩ | ⟨e, h⟩
  · left
    rw [hl] at h
    exact ⟨v, _, hI.snoc hm b₁ _ rfl (hk₁ v) (hΨ _), h⟩
  · right
    rw [hl] at h
    exact ⟨e, _, hI.snoc hm b₂ _ rfl (hk₂ e) (hΨ _), h⟩

/-- One operation that is not awaited, with the knowledge about the trace carried
over. -/
theorem issueUnawaited_bind_inv {β : Type} {keep : Event → Bool}
    {Ψ : List Event → Event → Prop} {n : Nat} {L t : List Event} {op : Op}
    {f : Ref → Script β} {w : World} {g : Globals} {x : Exports} {r : Except Error β × State}
    (hm : Mono Ψ) (hI : Inv keep Ψ n L t) (hr : (issueUnawaited op >>= f) w ⟨g, x, t⟩ = r)
    (b₁ b₂ : Bool)
    (hk₁ : ∀ p v, keep ⟨n, g, op, .ok v, p⟩ = b₁)
    (hk₂ : ∀ e, keep ⟨n, g, op, .error e, none⟩ = b₂)
    (hΨ : ∀ p resp T, (∀ e ∈ L, e ∈ T) → (⟨n, g, op, resp, p⟩ : Event) ∈ T →
      Ψ T ⟨n, g, op, resp, p⟩) :
    (∃ p v t', Inv keep Ψ (n + 1) (cond b₁ (L ++ [⟨n, g, op, .ok v, p⟩]) L) t' ∧
        f v w ⟨g, x, t'⟩ = r) ∨
    (∃ e t', Inv keep Ψ (n + 1) (cond b₂ (L ++ [⟨n, g, op, .error e, none⟩]) L) t' ∧
        r = (.error e, ⟨g, x, t'⟩)) := by
  have hl : t.length = n := hI.1
  rcases issueUnawaited_bind_cases hr with ⟨p, v, h⟩ | ⟨e, h⟩
  · left
    rw [hl] at h
    exact ⟨p, v, _, hI.snoc hm b₁ _ rfl (hk₁ p v) (hΨ p _), h⟩
  · right
    rw [hl] at h
    exact ⟨e, _, hI.snoc hm b₂ _ rfl (hk₂ e) (hΨ none _), h⟩

/-- Reading `address` either yields the address of a contract object or throws. -/
theorem address_bind_cases {β : Type} {v : Ref} {f : String → Script β} {w : World} {s : State}
    {r : Except Error β × State} (h : (address v >>= f) w s = r) :
    (∃ c, v = .contract c ∧ f c.address w s = r) ∨
    (v = .null ∧ r = (.error (.typeError "address"), s)) := by
  subst h
  cases v with
  | null => right; exact ⟨rfl, rfl⟩
  | contract c => left; exact ⟨c, rfl, rfl⟩

theorem address_contract_bind_run {β : Type} (c : Contract) (f : String → Script β) (w : World)
    (s : State) : (address (.contract c) >>= f) w s = f c.address w s := rfl

theorem ite_bind_cases {α β : Type} {c : Prop} [Decidable c] {a b : Script α} {f : α → Script β}
    {w : World} {s : State} {r : Except Error β × State}
    (h : ((if c then a else b) >>= f) w s = r) :
    (c ∧ (a >>= f) w s = r) ∨ (¬ c ∧ (b >>= f) w s = r) := by
  by_cases hc : c
  · left; exact ⟨hc, by simpa [hc] using h⟩
  · right; exact ⟨hc, by simpa [hc] using h⟩

theorem ite_run_cases {β : Type} {c : Prop} [Decidable c] {a b : Script β} {w : World}
    {s : State} {r : Except Error β × State} (h : (if c then a else b) w s = r) :
    (c ∧ a w s = r) ∨ (¬ c ∧ b w s = r) := by
  by_cases hc : c
  · left; exact ⟨hc, by simpa [hc] using h⟩
  · right; exact ⟨hc, by simpa [hc] using h⟩

theorem getGlobals_bind_run {β : Type} (f : Globals → Script β) (w : World) (g : Globals)
    (x : Exports) (t : List Event) : (getGlobals >>= f) w ⟨g, x, t⟩ = f g w ⟨g, x, t⟩ := rfl

theorem setGlobals_bind_run {β : Type} (u : Globals → Globals) (f : Unit → Script β) (w : World)
    (g : Globals) (x : Exports) (t : List Event) :
    (setGlobals u >>= f) w ⟨g, x, t⟩ = f () w ⟨u g, x, t⟩ := rfl

theorem pure_run {α : Type} (a : α) (w : World) (s : State) :
    (pure a : Script α) w s = (.ok a, s) := rfl

theorem mono_true : Mono fun _ _ => True := fun _ _ _ _ h => h

theorem exists_of_kept {L T : List Event} {φ : Event → Prop} (hT : ∀ e ∈ L, e ∈ T)
    (h : ∃ e ∈ L, φ e) : ∃ e ∈ T, φ e := by
  obtain ⟨e, he, hφ⟩ := h
  exact ⟨e, hT e he, hφ⟩

theorem kept_subset {keep : Event → Bool} {t L : List Event} (hf : t.filter keep = L) :
    ∀ e ∈ L, e ∈ t := by
  intro e he
  rw [← hf] at he
  exact (List.mem_filter.1 he).1

theorem callsOf_of_kept {keep : Event → Bool} {t L : List Event} (hf : t.filter keep = L)
    (m : String) (hk : ∀ ev : Event, ev.op.isCallOf m = true → keep ev = true) :
    callsOf m t = L.filter fun ev => ev.op.isCallOf m := by
  rw [← hf, List.filter_filter]
  unfold callsOf
  congr 1
  funext ev
  cases h : ev.op.isCallOf m
  · simp
  · simp [hk ev h]

theorem isCallContract_of_isCallOf {m : String} (ev : Event) (h : ev.op.isCallOf m = true) :
    ev.op.isCallContract = true := by
  cases hop : ev.op <;> simp_all [Op.isCallOf, Op.isCallContract]

/-! ## The claims -/

/-- Fail-fast: an operation on which the collaborators throw is the last one of
the run, and the run fails with what they threw. -/
theorem run_fail_fast (up : Upstream) (w : World) (environment deployer : String) :
    ∀ ev ∈ (run up w environment deployer).2.trace, ∀ e, ev.response = .error e →
      (run up w environment deployer).1 = .error e ∧
      ev.seq + 1 = (run up w environment deployer).2.trace.length := by
  generalize hr : run up w environment deployer = r
  simp only [run, moduleLoaded, deployEcosystem, addMarketsIfLocal, fromArtifact, detectNetwork,
    link, linkContract, deployContract, callContract, consoleLogAddress, bind_assoc, pure_bind]
    at hr
  have hI := Inv.nil Event.failed fun _ _ => True
  repeat' (first
    | (replace hr := issue_bind_inv mono_true hI hr false true (fun _ => rfl) (fun _ => rfl)
         (fun _ _ _ _ => trivial)
       clear hI
       rcases hr with ⟨v, t, hI, hr⟩ | ⟨e, t, hI, rfl⟩
       all_goals simp only [cond_true, cond_false, List.cons_append, List.nil_append,
         Nat.reduceAdd] at hI)
    | (replace hr := issueUnawaited_bind_inv mono_true hI hr false true
         (fun _ _ => rfl) (fun _ => rfl) (fun _ => (fun _ _ _ _ => trivial))
       clear hI
       rcases hr with ⟨p, v, t, hI, hr⟩ | ⟨e, t, hI, rfl⟩
       all_goals simp only [cond_true, cond_false, List.cons_append, List.nil_append,
         Nat.reduceAdd] at hI)
    | (rw [getGlobals_bind_run] at hr)
    | (rw [setGlobals_bind_run] at hr; dsimp only at hr)
    | (rw [address_contract_bind_run] at hr)
    | (replace hr := address_bind_cases hr; rcases hr with ⟨c, rfl, hr⟩ | ⟨rfl, rfl⟩)
    | (replace hr := ite_bind_cases hr
       simp only [bind_assoc, pure_bind] at hr
       rcases hr with ⟨hc, hr⟩ | ⟨hc, hr⟩)
    | (replace hr := ite_run_cases hr; rcases hr with ⟨hc, hr⟩ | ⟨hc, hr⟩)
    | (rw [pure_run] at hr; subst hr))
  all_goals
    obtain ⟨hl, -, hf, -⟩ := hI
    intro ev hev e he
    have hm : ev ∈ List.filter Event.failed _ :=
      List.mem_filter.2 ⟨hev, by simp [Event.failed, he]⟩
    rw [hf] at hm
    first
    | exact absurd hm (List.not_mem_nil _)
    | (rw [List.mem_singleton] at hm
       subst hm
       cases he
       exact ⟨rfl, by simp [hl]⟩)

theorem mono_allBound (up : Upstream) : Mono (AllBound up) := by
  intro T T' ev hsub h hd
  obtain ⟨h1, e, he, h'⟩ := h hd
  refine ⟨fun b hb => ?_, e, hsub e he, h'⟩
  obtain ⟨e, he, h'⟩ := h1 b hb
  exact ⟨e, hsub e he, h'⟩

theorem isBinding_of_mem_bindings {up : Upstream} {op : Op} (h : op ∈ bindings up) :
    op.isBinding = true := by
  simp only [bindings, awaitedBindings, unawaitedBinding, List.cons_append, List.nil_append,
    List.mem_cons, List.mem_singleton, List.not_mem_nil, or_false] at h
  rcases h with rfl | rfl | rfl <;> rfl

theorem no_deploy_after_failed_binding {up : Upstream} {t L : List Event}
    (hf : t.filter keepBindingsAndDeploys = L)
    (h : (L.all fun e => !(e.failed && e.op.isBinding) ||
      L.all fun ev => !ev.op.isDeployContract) = true) :
    ∀ e ∈ t, e.op ∈ bindings up → e.failed = true →
      ∀ ev ∈ t, ev.op.isDeployContract = false := by
  intro e he hb hfail ev hev
  by_contra hd
  have hd' : ev.op.isDeployContract = true := by simpa using hd
  have h1 : e ∈ L := by
    rw [← hf]; exact List.mem_filter.2 ⟨he, by simp [keepBindingsAndDeploys, isBinding_of_mem_bindings hb]⟩
  have h2 : ev ∈ L := by
    rw [← hf]; exact List.mem_filter.2 ⟨hev, by simp [keepBindingsAndDeploys, hd']⟩
  have h3 := List.all_eq_true.1 h e h1
  simp only [hfail, isBinding_of_mem_bindings hb, Bool.and_self, Bool.not_true, Bool.false_or]
    at h3
  have h4 := List.all_eq_true.1 h3 ev h2
  simp [hd'] at h4

/-- What every run does guarantee about the bindings: before any `deployContract`
is issued, the two awaited bindings (`DmmTokenLibrary` into `DmmEtherFactory` and
into `DmmTokenFactory`, both with `dmmTokenLibrary.address`) were issued and ran
to completion, and the `linkContract` of `StringHelpers` into
`UnderlyingTokenValuatorImplV1` was called and had returned; and if one of the
three calls throws, no `deployContract` is issued at all.  Nothing is said of a
promise that `linkContract` hands back: the script does not wait for it. -/
theorem awaited_bindings_precede_deploys (up : Upstream) (w : World)
    (environment deployer : String) :
    (∀ ev ∈ (run up w environment deployer).2.trace, ev.op.isDeployContract = true →
      (∀ b ∈ awaitedBindings up, BoundBefore (run up w environment deployer).2.trace ev b) ∧
      IssuedBefore (run up w environment deployer).2.trace ev (unawaitedBinding up)) ∧
    (∀ e ∈ (run up w environment deployer).2.trace, e.op ∈ bindings up → e.failed = true →
      ∀ ev ∈ (run up w environment deployer).2.trace, ev.op.isDeployContract = false) := by
  generalize hr : run up w environment deployer = r
  simp only [run, moduleLoaded, deployEcosystem, addMarketsIfLocal, fromArtifact, detectNetwork,
    link, linkContract, deployContract, callContract, consoleLogAddress, bind_assoc, pure_bind]
    at hr
  have hI := Inv.nil keepBindingsAndDeploys (AllBound up)
  repeat' (first
    | (first
        | replace hr := issue_bind_inv (mono_allBound up) hI hr false false
            (fun _ => rfl) (fun _ => rfl) (fun _ _ _ _ hd => Bool.noConfusion hd)
        | replace hr := issue_bind_inv (mono_allBound up) hI hr true true
            (fun _ => rfl) (fun _ => rfl) (fun _ _ _ _ hd => Bool.noConfusion hd)
        | replace hr := issue_bind_inv (mono_allBound up) hI hr true true
            (fun _ => rfl) (fun _ => rfl) (by
              intro resp T hT _ _
              refine ⟨fun b hb => exists_of_kept hT ?_, exists_of_kept hT ?_⟩
              · simp only [awaitedBindings, List.mem_cons, List.mem_singleton,
                  List.not_mem_nil, or_false] at hb
                rcases hb with rfl | rfl <;> simp [Event.completed]
              · simp [unawaitedBinding])
       clear hI
       rcases hr with ⟨v, t, hI, hr⟩ | ⟨e, t, hI, rfl⟩
       all_goals simp only [cond_true, cond_false, List.cons_append, List.nil_append,
         Nat.reduceAdd] at hI)
    | (replace hr := issueUnawaited_bind_inv (mono_allBound up) hI hr true true
         (fun _ _ => rfl) (fun _ => rfl) (fun _ => (fun _ _ _ _ hd => Bool.noConfusion hd))
       clear hI
       rcases hr with ⟨p, v, t, hI, hr⟩ | ⟨e, t, hI, rfl⟩
       all_goals simp only [cond_true, cond_false, List.cons_append, List.nil_append,
         Nat.reduceAdd] at hI)
    | (rw [getGlobals_bind_run] at hr)
    | (rw [setGlobals_bind_run] at hr; dsimp only at hr)
    | (rw [address_contract_bind_run] at hr)
    | (replace hr := address_bind_cases hr; rcases hr with ⟨c, rfl, hr⟩ | ⟨rfl, rfl⟩)
    | (replace hr := ite_bind_cases hr
       simp only [bind_assoc, pure_bind] at hr
       rcases hr with ⟨hc, hr⟩ | ⟨hc, hr⟩)
    | (replace hr := ite_run_cases hr; rcases hr with ⟨hc, hr⟩ | ⟨hc, hr⟩)
    | (rw [pure_run] at hr; subst hr))
  all_goals exact ⟨hI.2.2.2, no_deploy_after_failed_binding hI.2.2.1 rfl⟩

/-- C9, at the failing input: a `LOCAL` run in which every awaited call succeeds
and `linkContract` hands back a promise that is rejected later.  The run
completes; the binding of `StringHelpers` into `UnderlyingTokenValuatorImplV1`,
operation 12, has failed; the seven `deployContract` calls, operations 13 to 19,
are issued all the same.  So the run does not have the property claim C9
states. -/
theorem unawaited_binding_failure_is_followed_by_deploys :
    (run sampleUpstream linkRejectedLater "LOCAL" "0xD").1 = .ok () ∧
    (((run sampleUpstream linkRejectedLater "LOCAL" "0xD").2.trace.filter
      fun ev => ev.op.isBinding && ev.failedLater).map fun ev => (ev.seq, ev.op)) =
        [(12, unawaitedBinding sampleUpstream)] ∧
    ((run sampleUpstream linkRejectedLater "LOCAL" "0xD").2.trace.filter
      fun ev => ev.op.isDeployContract).map Event.seq = [13, 14, 15, 16, 17, 18, 19] ∧
    ¬ BindingsCompleteBeforeDeploys sampleUpstream linkRejectedLater "LOCAL" "0xD" := by
  refine ⟨rfl, rfl, rfl, fun h => ?_⟩
  have h1 := h.2
    ((run sampleUpstream linkRejectedLater "LOCAL" "0xD").2.trace.get ⟨12, by decide⟩)
    (List.get_mem _ _ _) (List.mem_append_right _ (List.mem_singleton.2 rfl)) rfl
    ((run sampleUpstream linkRejectedLater "LOCAL" "0xD").2.trace.get ⟨13, by decide⟩)
    (List.get_mem _ _ _)
  exact Bool.noConfusion h1

theorem SetByEarlierDeploy.mono {T T' : List Event} {ev : Event} {a : String} {v : Ref}
    (hsub : ∀ e ∈ T, e ∈ T') (h : SetByEarlierDeploy T ev a v) : SetByEarlierDeploy T' ev a v := by
  obtain ⟨e, he, h'⟩ := h
  exact ⟨e, hsub e he, h'⟩

theorem mono_controllerGuarded : Mono ControllerGuarded := by
  intro T T' ev hsub h hd
  obtain ⟨h0, h1, h2, h3, h4, h5, h6⟩ := h hd
  exact ⟨h0, h1.mono hsub, h2.mono hsub, h3.mono hsub, h4.mono hsub, h5.mono hsub, h6.mono hsub⟩

/-- C3: in every run, whatever the environment and the collaborators do (a
`deployContract` may resolve to `null`), when the `deployContract` of
`DmmController` is issued the six prerequisite globals are non-null, and each
holds what an earlier, resolved `deployContract` of this run returned. -/
theorem controller_deploy_requires_prerequisites (up : Upstream) (w : World)
    (environment deployer : String) :
    ∀ ev ∈ (run up w environment deployer).2.trace, ev.op.isDeployOf "DmmController" = true →
      (ev.globals.interestRateImplV1 ≠ .null ∧
        ev.globals.chainlinkCollateralValuator ≠ .null ∧
        ev.globals.underlyingTokenValuatorImplV1 ≠ .null ∧
        ev.globals.dmmEtherFactory ≠ .null ∧
        ev.globals.dmmTokenFactory ≠ .null ∧
        ev.globals.dmmBlacklist ≠ .null) ∧
      SetByEarlierDeploy (run up w environment deployer).2.trace ev
        "InterestRateImplV1" ev.globals.interestRateImplV1 ∧
      SetByEarlierDeploy (run up w environment deployer).2.trace ev
        "ChainlinkCollateralValuator" ev.globals.chainlinkCollateralValuator ∧
      SetByEarlierDeploy (run up w environment deployer).2.trace ev
        "UnderlyingTokenValuatorImplV1" ev.globals.underlyingTokenValuatorImplV1 ∧
      SetByEarlierDeploy (run up w environment deployer).2.trace ev
        "DmmEtherFactory" ev.globals.dmmEtherFactory ∧
      SetByEarlierDeploy (run up w environment deployer).2.trace ev
        "DmmTokenFactory" ev.globals.dmmTokenFactory ∧
      SetByEarlierDeploy (run up w environment deployer).2.trace ev
        "DmmBlacklistable" ev.globals.dmmBlacklist := by
  generalize hr : run up w environment deployer = r
  simp only [run, moduleLoaded, deployEcosystem, addMarketsIfLocal, fromArtifact, detectNetwork,
    link, linkContract, deployContract, callContract, consoleLogAddress, bind_assoc, pure_bind]
    at hr
  have hI := Inv.nil keepDeploys ControllerGuarded
  repeat' (first
    | (first
        | replace hr := issue_bind_inv (mono_controllerGuarded) hI hr false false
            (fun _ => rfl) (fun _ => rfl) (fun _ _ _ _ hd => Bool.noConfusion hd)
        | replace hr := issue_bind_inv (mono_controllerGuarded) hI hr true true
            (fun _ => rfl) (fun _ => rfl) (fun _ _ _ _ hd => Bool.noConfusion hd)
        | replace hr := issue_bind_inv (mono_controllerGuarded) hI hr true true
            (fun _ => rfl) (fun _ => rfl) (by
              intro resp T hT _ _
              refine ⟨by simp, ?_, ?_, ?_, ?_, ?_, ?_⟩ <;>
                refine exists_of_kept hT ?_ <;> simp [Op.isDeployOf])
       clear hI
       rcases hr with ⟨v, t, hI, hr⟩ | ⟨e, t, hI, rfl⟩
       all_goals simp only [cond_true, cond_false, List.cons_append, List.nil_append,
         Nat.reduceAdd] at hI)
    | (replace hr := issueUnawaited_bind_inv (mono_controllerGuarded) hI hr false false
         (fun _ _ => rfl) (fun _ => rfl) (fun _ => (fun _ _ _ _ hd => Bool.noConfusion hd))
       clear hI
       rcases hr with ⟨p, v, t, hI, hr⟩ | ⟨e, t, hI, rfl⟩
       all_goals simp only [cond_true, cond_false, List.cons_append, List.nil_append,
         Nat.reduceAdd] at hI)
    | (rw [getGlobals_bind_run] at hr)
    | (rw [setGlobals_bind_run] at hr; dsimp only at hr)
    | (rw [address_contract_bind_run] at hr)
    | (replace hr := address_bind_cases hr; rcases hr with ⟨c, rfl, hr⟩ | ⟨rfl, rfl⟩)
    | (replace hr := ite_bind_cases hr
       simp only [bind_assoc, pure_bind] at hr
       rcases hr with ⟨hc, hr⟩ | ⟨hc, hr⟩)
    | (replace hr := ite_run_cases hr; rcases hr with ⟨hc, hr⟩ | ⟨hc, hr⟩)
    | (rw [pure_run] at hr; subst hr))
  all_goals exact hI.2.2.2

theorem mono_controllerArgs (up : Upstream) : Mono (ControllerArgs up) := by
  intro T T' ev hsub h ps dp gl hop
  obtain ⟨c1, c2, c3, c4, c5, c6, h1, h2, h3, h4, h5, h6, hps⟩ := h ps dp gl hop
  exact ⟨c1, c2, c3, c4, c5, c6, h1.mono hsub, h2.mono hsub, h3.mono hsub, h4.mono hsub,
    h5.mono hsub, h6.mono hsub, hps⟩

/-- C8: in every run that reaches the controller step, `DmmController` is deployed
with exactly nine constructor arguments: the addresses returned by the deploys,
earlier in this run, of the interest-rate module, the collateral valuator, the
underlying-token valuator, the ether factory, the token factory and the
blacklist, then `10^18`, `5 * 10^17` and the wrapped-ether address, whatever
the environment. -/
theorem controller_constructor_arguments (up : Upstream) (w : World)
    (environment deployer : String) :
    ∀ ev ∈ (run up w environment deployer).2.trace,
      ∀ ps dp gl, ev.op = .deployContract "DmmController" ps dp gl →
        ∃ c1 c2 c3 c4 c5 c6 : Contract,
          SetByEarlierDeploy (run up w environment deployer).2.trace ev
            "InterestRateImplV1" (.contract c1) ∧
          SetByEarlierDeploy (run up w environment deployer).2.trace ev
            "ChainlinkCollateralValuator" (.contract c2) ∧
          SetByEarlierDeploy (run up w environment deployer).2.trace ev
            "UnderlyingTokenValuatorImplV1" (.contract c3) ∧
          SetByEarlierDeploy (run up w environment deployer).2.trace ev
            "DmmEtherFactory" (.contract c4) ∧
          SetByEarlierDeploy (run up w environment deployer).2.trace ev
            "DmmTokenFactory" (.contract c5) ∧
          SetByEarlierDeploy (run up w environment deployer).2.trace ev
            "DmmBlacklistable" (.contract c6) ∧
          ps = [.str c1.address, .str c2.address, .str c3.address, .str c4.address,
            .str c5.address, .str c6.address, .bn (10 ^ 18), .bn (5 * 10 ^ 17),
            .str up.weth.address] := by
  generalize hr : run up w environment deployer = r
  simp only [run, moduleLoaded, deployEcosystem, addMarketsIfLocal, fromArtifact, detectNetwork,
    link, linkContract, deployContract, callContract, consoleLogAddress, bind_assoc, pure_bind]
    at hr
  have hI := Inv.nil keepDeploys (ControllerArgs up)
  repeat' (first
    | (first
        | replace hr := issue_bind_inv (mono_controllerArgs up) hI hr false false
            (fun _ => rfl) (fun _ => rfl) (by intro resp T hT _ ps dp gl h; first | (cases h; done) | (simp at h; done))
        | replace hr := issue_bind_inv (mono_controllerArgs up) hI hr true true
            (fun _ => rfl) (fun _ => rfl) (by
              intro resp T hT _ ps dp gl h
              first
              | (cases h; done)
              | (simp at h; done)
              | (cases h
                 refine ⟨_, _, _, _, _, _, ?_, ?_, ?_, ?_, ?_, ?_, rfl⟩ <;>
                   refine exists_of_kept hT ?_ <;> simp [Op.isDeployOf]))
       clear hI
       rcases hr with ⟨v, t, hI, hr⟩ | ⟨e, t, hI, rfl⟩
       all_goals simp only [cond_true, cond_false, List.cons_append, List.nil_append,
         Nat.reduceAdd] at hI)
    | (replace hr := issueUnawaited_bind_inv (mono_controllerArgs up) hI hr false false
         (fun _ _ => rfl) (fun _ => rfl) (fun _ => (by intro resp T hT _ ps dp gl h; first | (cases h; done) | (simp at h; done)))
       clear hI
       rcases hr with ⟨p, v, t, hI, hr⟩ | ⟨e, t, hI, rfl⟩
       all_goals simp only [cond_true, cond_false, List.cons_append, List.nil_append,
         Nat.reduceAdd] at hI)
    | (rw [getGlobals_bind_run] at hr)
    | (rw [setGlobals_bind_run] at hr; dsimp only at hr)
    | (rw [address_contract_bind_run] at hr)
    | (replace hr := address_bind_cases hr; rcases hr with ⟨c, rfl, hr⟩ | ⟨rfl, rfl⟩)
    | (replace hr := ite_bind_cases hr
       simp only [bind_assoc, pure_bind] at hr
       rcases hr with ⟨hc, hr⟩ | ⟨hc, hr⟩)
    | (replace hr := ite_run_cases hr; rcases hr with ⟨hc, hr⟩ | ⟨hc, hr⟩)
    | (rw [pure_run] at hr; subst hr))
  all_goals exact hI.2.2.2

theorem mono_oracleArgs (up : Upstream) (environment : String) :
    Mono (OracleArgs up environment) := fun _ _ _ _ h => h

/-- C7: the pair (oracleAddress, chainlinkJobId) is a function of the environment
string alone: `LOCAL` and `PRODUCTION` give the zero address and the all-zero job
id, `TESTNET` gives the test-network oracle and job id; and in every run, whatever
the collaborators and the deployer, the job id resolved for the environment is
the third constructor argument of the collateral valuator (and the oracle
address the argument of the `getCollateralValue` request). -/
theorem oracle_config_by_environment :
    oracleConfig "LOCAL" =
      (.str "0x0000000000000000000000000000000000000000",
       .str "0x0000000000000000000000000000000000000000000000000000000000000000") ∧
    oracleConfig "PRODUCTION" =
      (.str "0x0000000000000000000000000000000000000000",
       .str "0x0000000000000000000000000000000000000000000000000000000000000000") ∧
    oracleConfig "TESTNET" =
      (.str "0x7AFe1118Ea78C1eae84ca8feE5C65Bc76CcF879e",
       .str "0x00000000000000000000000000000000d4b380b30cb64722b8843ead232985c3") ∧
    ∀ (up : Upstream) (w : World) (environment deployer : String),
      ∀ ev ∈ (run up w environment deployer).2.trace,
        (∀ ps dp gl, ev.op = .deployContract "ChainlinkCollateralValuator" ps dp gl →
          ps = [.str up.link.address, .bn (10 ^ 17), (oracleConfig environment).2]) ∧
        (∀ tg ps dp gl, ev.op = .callContract tg "getCollateralValue" ps dp gl →
          ps = [(oracleConfig environment).1]) := by
  refine ⟨by simp [oracleConfig], by simp [oracleConfig], by simp [oracleConfig], ?_⟩
  intro up w environment deployer
  generalize hr : run up w environment deployer = r
  simp only [run, moduleLoaded, deployEcosystem, addMarketsIfLocal, fromArtifact, detectNetwork,
    link, linkContract, deployContract, callContract, consoleLogAddress, bind_assoc, pure_bind]
    at hr
  have hI := Inv.nil keepNone (OracleArgs up environment)
  repeat' (first
    | (first
        | replace hr := issue_bind_inv (mono_oracleArgs up environment) hI hr false false
            (fun _ => rfl) (fun _ => rfl) (by
              intro resp T hT _
              constructor
              · intro ps dp gl h
                first | (cases h; done) | (simp at h; done) | (cases h; rfl)
              · intro tg ps dp gl h
                first | (cases h; done) | (simp at h; done) | (cases h; rfl))
       clear hI
       rcases hr with ⟨v, t, hI, hr⟩ | ⟨e, t, hI, rfl⟩
       all_goals simp only [cond_true, cond_false, List.cons_append, List.nil_append,
         Nat.reduceAdd] at hI)
    | (replace hr := issueUnawaited_bind_inv (mono_oracleArgs up environment) hI hr false false
         (fun _ _ => rfl) (fun _ => rfl) (fun _ => (by
              intro resp T hT _
              constructor
              · intro ps dp gl h
                first | (cases h; done) | (simp at h; done) | (cases h; rfl)
              · intro tg ps dp gl h
                first | (cases h; done) | (simp at h; done) | (cases h; rfl)))
       clear hI
       rcases hr with ⟨p, v, t, hI, hr⟩ | ⟨e, t, hI, rfl⟩
       all_goals simp only [cond_true, cond_false, List.cons_append, List.nil_append,
         Nat.reduceAdd] at hI)
    | (rw [getGlobals_bind_run] at hr)
    | (rw [setGlobals_bind_run] at hr; dsimp only at hr)
    | (rw [address_contract_bind_run] at hr)
    | (replace hr := address_bind_cases hr; rcases hr with ⟨c, rfl, hr⟩ | ⟨rfl, rfl⟩)
    | (replace hr := ite_bind_cases hr
       simp only [bind_assoc, pure_bind] at hr
       rcases hr with ⟨hc, hr⟩ | ⟨hc, hr⟩)
    | (replace hr := ite_run_cases hr; rcases hr with ⟨hc, hr⟩ | ⟨hc, hr⟩)
    | (rw [pure_run] at hr; subst hr))
  all_goals exact hI.2.2.2

theorem failed_deploy_mem {t L : List Event} (hf : t.filter keepDeploys = L) {ev : Event}
    {a : String} {e : Error} (hev : ev ∈ t) (hk : ev.op.isDeployOf a = true)
    (he : ev.response = .error e) : ev ∈ L.filter Event.failed := by
  rw [← hf]
  refine List.mem_filter.2 ⟨List.mem_filter.2 ⟨hev, ?_⟩, by simp [Event.failed, he]⟩
  cases hop : ev.op <;> simp_all [keepDeploys, Op.isDeployOf, Op.isDeployContract]

set_option maxHeartbeats 1000000 in
/-- C2, amended: when the `deployContract` of a step throws, the run fails with
what was thrown, nothing is issued after it, the variable of every earlier step
holds what the deploy of that step returned, and the variables of this step and
of the later ones are `null`. -/
theorem failed_deploy_leaves_prefix (up : Upstream) (w : World) (environment deployer : String)
    (k : Step) (ev : Event) (e : Error)
    (hev : ev ∈ (run up w environment deployer).2.trace)
    (hk : ev.op.isDeployOf k.artifact = true) (he : ev.response = .error e) :
    (run up w environment deployer).1 = .error e ∧
    (∀ e' ∈ (run up w environment deployer).2.trace, e'.seq ≤ ev.seq) ∧
    (∀ j : Step, j.index < k.index →
      ∃ e' ∈ (run up w environment deployer).2.trace, e'.op.isDeployOf j.artifact = true ∧
        e'.response = .ok (j.variable (run up w environment deployer).2.globals)) ∧
    (∀ j : Step, k.index ≤ j.index →
      j.variable (run up w environment deployer).2.globals = .null) := by
  revert k ev e
  generalize hr : run up w environment deployer = r
  simp only [run, moduleLoaded, deployEcosystem, addMarketsIfLocal, fromArtifact, detectNetwork,
    link, linkContract, deployContract, callContract, consoleLogAddress, bind_assoc, pure_bind]
    at hr
  have hI := Inv.nil keepDeploys fun _ _ => True
  repeat' (first
    | (first
        | replace hr := issue_bind_inv (mono_true) hI hr false false
            (fun _ => rfl) (fun _ => rfl) (fun _ _ _ _ => trivial)
        | replace hr := issue_bind_inv (mono_true) hI hr true true
            (fun _ => rfl) (fun _ => rfl) (fun _ _ _ _ => trivial)
       clear hI
       rcases hr with ⟨v, t, hI, hr⟩ | ⟨e, t, hI, rfl⟩
       all_goals simp only [cond_true, cond_false, List.cons_append, List.nil_append,
         Nat.reduceAdd] at hI)
    | (replace hr := issueUnawaited_bind_inv (mono_true) hI hr false false
         (fun _ _ => rfl) (fun _ => rfl) (fun _ => (fun _ _ _ _ => trivial))
       clear hI
       rcases hr with ⟨p, v, t, hI, hr⟩ | ⟨e, t, hI, rfl⟩
       all_goals simp only [cond_true, cond_false, List.cons_append, List.nil_append,
         Nat.reduceAdd] at hI)
    | (rw [getGlobals_bind_run] at hr)
    | (rw [setGlobals_bind_run] at hr; dsimp only at hr)
    | (rw [address_contract_bind_run] at hr)
    | (replace hr := address_bind_cases hr; rcases hr with ⟨c, rfl, hr⟩ | ⟨rfl, rfl⟩)
    | (replace hr := ite_bind_cases hr
       simp only [bind_assoc, pure_bind] at hr
       rcases hr with ⟨hc, hr⟩ | ⟨hc, hr⟩)
    | (replace hr := ite_run_cases hr; rcases hr with ⟨hc, hr⟩ | ⟨hc, hr⟩)
    | (rw [pure_run] at hr; subst hr))
  all_goals
    obtain ⟨hl, hs, hf, -⟩ := hI
    intro k ev e hev hk he
    have hm := failed_deploy_mem hf hev hk he
    first
    | (simp [Event.failed] at hm; done)
    | (simp only [List.filter, Event.failed, List.mem_singleton] at hm
       subst hm
       cases he
       cases k <;> first | (simp [Step.artifact, Op.isDeployOf] at hk; done) | skip
       all_goals refine ⟨rfl, fun e' he' => Nat.le_of_lt_succ (hs e' he'), ?_, ?_⟩
       · intro j hj
         refine exists_of_kept (kept_subset hf) ⟨_, List.get_mem _ (j.index - 1) ?_, ?_, ?_⟩
         all_goals cases j <;> first
           | (simp [Step.index] at hj; done)
           | rfl
           | (simp [Step.index]; done)
       · intro j hj
         cases j <;> first
           | (simp [Step.index] at hj; done)
           | rfl)

/-- C2, witness: with collaborators that reject the deploy of the collateral
valuator, the fifteenth operation of a `LOCAL` run is that deploy, it throws, and
the theorem applies to it. -/
theorem failed_deploy_leaves_prefix_witness :
    ((run sampleUpstream nullThenReject "LOCAL" "0xD").2.trace.get ⟨14, by decide⟩ ∈
        (run sampleUpstream nullThenReject "LOCAL" "0xD").2.trace ∧
      ((run sampleUpstream nullThenReject "LOCAL" "0xD").2.trace.get ⟨14, by decide⟩).op.isDeployOf
        Step.collateralValuator.artifact = true ∧
      ((run sampleUpstream nullThenReject "LOCAL" "0xD").2.trace.get ⟨14, by decide⟩).response =
        .error (.thrown "revert")) ∧
    ((run sampleUpstream nullThenReject "LOCAL" "0xD").1 = .error (.thrown "revert") ∧
      (∀ e' ∈ (run sampleUpstream nullThenReject "LOCAL" "0xD").2.trace, e'.seq ≤
        ((run sampleUpstream nullThenReject "LOCAL" "0xD").2.trace.get ⟨14, by decide⟩).seq) ∧
      (∀ j : Step, j.index < Step.collateralValuator.index →
        ∃ e' ∈ (run sampleUpstream nullThenReject "LOCAL" "0xD").2.trace,
          e'.op.isDeployOf j.artifact = true ∧
          e'.response =
            .ok (j.variable (run sampleUpstream nullThenReject "LOCAL" "0xD").2.globals)) ∧
      (∀ j : Step, Step.collateralValuator.index ≤ j.index →
        j.variable (run sampleUpstream nullThenReject "LOCAL" "0xD").2.globals = .null)) :=
  ⟨⟨List.get_mem _ _ _, rfl, rfl⟩,
    failed_deploy_leaves_prefix sampleUpstream nullThenReject "LOCAL" "0xD"
      Step.collateralValuator _ _ (List.get_mem _ _ _) rfl rfl⟩

/-- C2, counterexample: the deploy of `InterestRateImplV1` resolves to `null`, the
deploy of `ChainlinkCollateralValuator` throws; afterwards `interestRateImplV1`,
the variable of the step before the failed one, is `null`. -/
theorem failure_does_not_leave_non_null_prefix :
    ¬ FailureLeavesNonNullPrefix sampleUpstream nullThenReject "LOCAL" "0xD" := by
  intro h
  have h1 := (h Step.collateralValuator
    ((run sampleUpstream nullThenReject "LOCAL" "0xD").2.trace.get ⟨14, by decide⟩)
    (List.get_mem _ _ _) rfl rfl Step.interestRate).2 (by decide)
  exact h1 rfl

/-- C1, at the failing input: with the environment `STAGING` and collaborators
that never fail, the run is not rejected: it completes, having issued the seven
deploys with an `undefined` job id. -/
theorem invalid_environment_is_not_rejected :
    oracleConfig "STAGING" = (.undefined, .undefined) ∧
    (run sampleUpstream allSucceed "STAGING" "0xD").1 = .ok () ∧
    ((run sampleUpstream allSucceed "STAGING" "0xD").2.trace.filter
      fun ev => ev.op.isDeployContract).length = 7 ∧
    ((run sampleUpstream allSucceed "STAGING" "0xD").2.trace.map Event.op).get? 14 =
      some (.deployContract "ChainlinkCollateralValuator"
        [.str "0x514", .bn (10 ^ 17), .undefined] "0xD" 4000000) :=
  ⟨rfl, rfl, rfl, rfl⟩

/-- C10, at the failing input: after a successful `LOCAL` run the six globals
behind the exported fields hold the deployed contracts, and the six exported
fields are still `null`. -/
theorem exports_do_not_follow_the_run :
    (run sampleUpstream allSucceed "LOCAL" "0xD").1 = .ok () ∧
    (run sampleUpstream allSucceed "LOCAL" "0xD").2.globals =
      { interestRateImplV1 := .contract ⟨"InterestRateImplV1"⟩
        chainlinkCollateralValuator := .contract ⟨"ChainlinkCollateralValuator"⟩
        underlyingTokenValuatorImplV1 := .contract ⟨"UnderlyingTokenValuatorImplV1"⟩
        delayedOwner := .null
        dmmEtherFactory := .contract ⟨"DmmEtherFactory"⟩
        dmmTokenFactory := .contract ⟨"DmmTokenFactory"⟩
        dmmBlacklist := .contract ⟨"DmmBlacklistable"⟩
        dmmController := .contract ⟨"DmmController"⟩ } ∧
    (run sampleUpstream allSucceed "LOCAL" "0xD").2.exports =
      { interestRateImplV1 := .null
        chainlinkCollateralValuator := .null
        underlyingTokenValuatorImplV1 := .null
        dmmTokenFactory := .null
        dmmBlacklist := .null
        dmmController := .null } :=
  ⟨rfl, rfl, rfl⟩

theorem mono_marketAfterOwnership (deployer : String) : Mono (MarketAfterOwnership deployer) := by
  intro T T' ev hsub h hd
  obtain ⟨c, hc, hop, e, he, h'⟩ := h hd
  exact ⟨c, hc, hop, e, hsub e he, h'⟩

theorem no_market_after_failed_transfer {t L : List Event} (hf : t.filter keepCalls = L)
    (h : ((L.all fun e => !(e.op.isCallOf "transferOwnership" && e.failed)) ||
      L.all fun ev => !ev.op.isCallOf "addMarket") = true) :
    ∀ e ∈ t, e.op.isCallOf "transferOwnership" = true → e.failed = true →
      callsOf "addMarket" t = [] := by
  intro e he hop hfail
  rw [callsOf_of_kept hf "addMarket" fun ev h => isCallContract_of_isCallOf ev h]
  have h1 : e ∈ L := by
    rw [← hf]; exact List.mem_filter.2 ⟨he, isCallContract_of_isCallOf e hop⟩
  rcases Bool.or_eq_true_iff.1 h with h2 | h2
  · have h3 := List.all_eq_true.1 h2 e h1
    simp [hop, hfail] at h3
  · rw [List.filter_eq_nil_iff]
    intro ev hev
    have h3 := List.all_eq_true.1 h2 ev hev
    simpa using h3

set_option maxHeartbeats 1000000 in
/-- C5: market provisioning runs iff the environment is `LOCAL`.  For any other
environment `addMarketsIfLocal` returns at once, issuing nothing, and a run
contains no `transferOwnership` and no `addMarket` call; a `LOCAL` run that
completes has issued the `transferOwnership` call.  In every run an `addMarket`
call is a call on `dmmController`, issued after the `transferOwnership` on
`dmmTokenFactory` with argument `[dmmController.address]` completed; and if
that `transferOwnership` throws, no `addMarket` call is issued. -/
theorem markets_only_local_after_ownership (up : Upstream) (w : World)
    (environment deployer : String) :
    (environment ≠ "LOCAL" → ∀ s : State,
      addMarketsIfLocal up environment deployer w s = (.ok (), s)) ∧
    (environment ≠ "LOCAL" →
      callsOf "transferOwnership" (run up w environment deployer).2.trace = [] ∧
      callsOf "addMarket" (run up w environment deployer).2.trace = []) ∧
    (environment = "LOCAL" → (run up w environment deployer).1 = .ok () →
      (callsOf "transferOwnership" (run up w environment deployer).2.trace).length = 1) ∧
    (∀ ev ∈ (run up w environment deployer).2.trace, ev.op.isCallOf "addMarket" = true →
      ∃ c, ev.globals.dmmController = .contract c ∧
        (∃ ps gl, ev.op = .callContract (.contract c) "addMarket" ps deployer gl) ∧
        ∃ e ∈ (run up w environment deployer).2.trace, e.seq < ev.seq ∧
          e.op = .callContract ev.globals.dmmTokenFactory "transferOwnership"
            [.str c.address] deployer 300000 ∧
          ∃ v, e.response = .ok v) ∧
    (∀ e ∈ (run up w environment deployer).2.trace,
      e.op.isCallOf "transferOwnership" = true → e.failed = true →
        callsOf "addMarket" (run up w environment deployer).2.trace = []) := by
  refine ⟨fun h s => by simp [addMarketsIfLocal, h]; rfl, ?_⟩
  generalize hr : run up w environment deployer = r
  simp only [run, moduleLoaded, deployEcosystem, addMarketsIfLocal, fromArtifact, detectNetwork,
    link, linkContract, deployContract, callContract, consoleLogAddress, bind_assoc, pure_bind]
    at hr
  have hI := Inv.nil keepCalls (MarketAfterOwnership deployer)
  repeat' (first
    | (first
        | replace hr := issue_bind_inv (mono_marketAfterOwnership deployer) hI hr false false
            (fun _ => rfl) (fun _ => rfl) (fun _ _ _ _ hd => Bool.noConfusion hd)
        | replace hr := issue_bind_inv (mono_marketAfterOwnership deployer) hI hr true true
            (fun _ => rfl) (fun _ => rfl) (by
              intro resp T hT _ hd
              first
              | (simp [Op.isCallOf] at hd; done)
              | (refine ⟨_, rfl, ⟨_, _, rfl⟩, exists_of_kept hT ?_⟩; simp))
       clear hI
       rcases hr with ⟨v, t, hI, hr⟩ | ⟨e, t, hI, rfl⟩
       all_goals simp only [cond_true, cond_false, List.cons_append, List.nil_append,
         Nat.reduceAdd] at hI)
    | (replace hr := issueUnawaited_bind_inv (mono_marketAfterOwnership deployer) hI hr false false
         (fun _ _ => rfl) (fun _ => rfl) (fun _ => (fun _ _ _ _ hd => Bool.noConfusion hd))
       clear hI
       rcases hr with ⟨p, v, t, hI, hr⟩ | ⟨e, t, hI, rfl⟩
       all_goals simp only [cond_true, cond_false, List.cons_append, List.nil_append,
         Nat.reduceAdd] at hI)
    | (rw [getGlobals_bind_run] at hr)
    | (rw [setGlobals_bind_run] at hr; dsimp only at hr)
    | (rw [address_contract_bind_run] at hr)
    | (replace hr := address_bind_cases hr; rcases hr with ⟨c, rfl, hr⟩ | ⟨rfl, rfl⟩)
    | (replace hr := ite_bind_cases hr
       simp only [bind_assoc, pure_bind] at hr
       rcases hr with ⟨hc, hr⟩ | ⟨hc, hr⟩)
    | (replace hr := ite_run_cases hr; rcases hr with ⟨hc, hr⟩ | ⟨hc, hr⟩)
    | (rw [pure_run] at hr; subst hr))
  all_goals
    obtain ⟨hl, hs, hf, ha⟩ := hI
    refine ⟨?_, ?_, ha, no_market_after_failed_transfer hf rfl⟩
    · intro henv
      first
      | exact absurd henv hc
      | exact ⟨(callsOf_of_kept hf _ fun ev h => isCallContract_of_isCallOf ev h).trans rfl,
          (callsOf_of_kept hf _ fun ev h => isCallContract_of_isCallOf ev h).trans rfl⟩
    · intro henv hres
      first
      | exact absurd henv hc
      | exact (congrArg List.length
          (callsOf_of_kept hf _ fun ev h => isCallContract_of_isCallOf ev h)).trans rfl
      | (simp at hres; done)

theorem mono_usdcAfterDai (up : Upstream) (deployer : String) :
    Mono (UsdcAfterDai up deployer) := by
  intro T T' ev hsub h controller hop
  obtain ⟨e, he, h'⟩ := h controller hop
  exact ⟨e, hsub e he, h'⟩

set_option maxHeartbeats 1000000 in
/-- C6: a `LOCAL` run that completes has issued exactly two `addMarket` calls,
both on the controller held by `dmmController`: first mDAI with
`[dai.address, "mDAI", "DMM: DAI", 18, 10^17, 10^17, 100 * 10^18]`, then mUSDC
with `[usdc.address, "mUSDC", "DMM: USDC", 6, 100000, 100000, 100000000]`; and
in every run the mUSDC registration is issued only after the mDAI registration
completed. -/
theorem two_markets_in_order (up : Upstream) (w : World) (environment deployer : String) :
    (environment = "LOCAL" → (run up w environment deployer).1 = .ok () →
      ∃ c, (run up w environment deployer).2.globals.dmmController = .contract c ∧
        (callsOf "addMarket" (run up w environment deployer).2.trace).map Event.op =
          [addMarketDai up (.contract c) deployer, addMarketUsdc up (.contract c) deployer]) ∧
    (∀ ev ∈ (run up w environment deployer).2.trace,
      ∀ controller, ev.op = addMarketUsdc up controller deployer →
        ∃ e ∈ (run up w environment deployer).2.trace, e.seq < ev.seq ∧
          e.op = addMarketDai up controller deployer ∧ ∃ v, e.response = .ok v) := by
  generalize hr : run up w environment deployer = r
  simp only [run, moduleLoaded, deployEcosystem, addMarketsIfLocal, fromArtifact, detectNetwork,
    link, linkContract, deployContract, callContract, consoleLogAddress, bind_assoc, pure_bind]
    at hr
  have hI := Inv.nil keepMarkets (UsdcAfterDai up deployer)
  repeat' (first
    | (first
        | replace hr := issue_bind_inv (mono_usdcAfterDai up deployer) hI hr false false
            (fun _ => rfl) (fun _ => rfl) (by
              intro resp T hT _ controller h
              first
              | (simp [addMarketUsdc] at h; done)
              | (injection h with h1 h2 h3 h4 h5
                 subst h1
                 refine exists_of_kept hT ?_
                 simp [addMarketDai, _0_1, _1]))
        | replace hr := issue_bind_inv (mono_usdcAfterDai up deployer) hI hr true true
            (fun _ => rfl) (fun _ => rfl) (by
              intro resp T hT _ controller h
              first
              | (simp [addMarketUsdc] at h; done)
              | (injection h with h1 h2 h3 h4 h5
                 subst h1
                 refine exists_of_kept hT ?_
                 simp [addMarketDai, _0_1, _1]))
       clear hI
       rcases hr with ⟨v, t, hI, hr⟩ | ⟨e, t, hI, rfl⟩
       all_goals simp only [cond_true, cond_false, List.cons_append, List.nil_append,
         Nat.reduceAdd] at hI)
    | (replace hr := issueUnawaited_bind_inv (mono_usdcAfterDai up deployer) hI hr false false
         (fun _ _ => rfl) (fun _ => rfl) (fun _ => (by
              intro resp T hT _ controller h
              first
              | (simp [addMarketUsdc] at h; done)
              | (injection h with h1 h2 h3 h4 h5
                 subst h1
                 refine exists_of_kept hT ?_
                 simp [addMarketDai, _0_1, _1])))
       clear hI
       rcases hr with ⟨p, v, t, hI, hr⟩ | ⟨e, t, hI, rfl⟩
       all_goals simp only [cond_true, cond_false, List.cons_append, List.nil_append,
         Nat.reduceAdd] at hI)
    | (rw [getGlobals_bind_run] at hr)
    | (rw [setGlobals_bind_run] at hr; dsimp only at hr)
    | (rw [address_contract_bind_run] at hr)
    | (replace hr := address_bind_cases hr; rcases hr with ⟨c, rfl, hr⟩ | ⟨rfl, rfl⟩)
    | (replace hr := ite_bind_cases hr
       simp only [bind_assoc, pure_bind] at hr
       rcases hr with ⟨hc, hr⟩ | ⟨hc, hr⟩)
    | (replace hr := ite_run_cases hr; rcases hr with ⟨hc, hr⟩ | ⟨hc, hr⟩)
    | (rw [pure_run] at hr; subst hr))
  all_goals
    obtain ⟨hl, hs, hf, ha⟩ := hI
    refine ⟨?_, ha⟩
    intro henv hres
    first
    | exact absurd henv hc
    | exact ⟨_, rfl, (congrArg (List.map Event.op) hf).trans rfl⟩
    | (simp at hres; done)

theorem not_all_succeeded {t L : List Event} (hf : t.filter keepCallsDeploysFailures = L)
    (hbad : ∃ ev ∈ L, ev.succeeded = false) : ¬ ∀ ev ∈ t, ev.succeeded = true := by
  intro h
  obtain ⟨ev, hev, hb⟩ := hbad
  rw [h ev (kept_subset hf ev hev)] at hb
  exact Bool.noConfusion hb

theorem keep_of_isCallOf {m : String} (ev : Event) (h : ev.op.isCallOf m = true) :
    keepCallsDeploysFailures ev = true := by
  simp [keepCallsDeploysFailures, isCallContract_of_isCallOf ev h]

theorem funded_not_local {environment : String}
    (h : environment = "TESTNET" ∨ environment = "PRODUCTION") (hl : ¬ environment ≠ "LOCAL") :
    False := by
  have hl' : environment = "LOCAL" := by simpa using hl
  subst hl'
  simp at h

set_option maxHeartbeats 1000000 in
/-- C4: the oracle-funding step runs iff the environment is `TESTNET` or
`PRODUCTION`.  For these two, a run in which every remote operation succeeds
completes, and its trace contains exactly one `transfer` call, on the fee token
with `[chainlinkCollateralValuator.address, 10 * 10^18]`, exactly one
`getCollateralValue` call, on the collateral valuator with the oracle address
resolved for the environment, and no `addMarket` call.  For any other
environment, `LOCAL` included, no run contains a `transfer` or a
`getCollateralValue` call. -/
theorem funding_only_testnet_production (up : Upstream) (w : World)
    (environment deployer : String) :
    ((environment = "TESTNET" ∨ environment = "PRODUCTION") →
      (∀ ev ∈ (run up w environment deployer).2.trace, ev.succeeded = true) →
      (run up w environment deployer).1 = .ok () ∧
      ∃ c, (run up w environment deployer).2.globals.chainlinkCollateralValuator = .contract c ∧
        (callsOf "transfer" (run up w environment deployer).2.trace).map Event.op =
          [.callContract (.contract up.link) "transfer" [.str c.address, .bn (10 * 10 ^ 18)]
            deployer 300000] ∧
        (callsOf "getCollateralValue" (run up w environment deployer).2.trace).map Event.op =
          [.callContract (.contract c) "getCollateralValue" [(oracleConfig environment).1]
            deployer 1000000] ∧
        callsOf "addMarket" (run up w environment deployer).2.trace = []) ∧
    (¬ (environment = "TESTNET" ∨ environment = "PRODUCTION") →
      callsOf "transfer" (run up w environment deployer).2.trace = [] ∧
      callsOf "getCollateralValue" (run up w environment deployer).2.trace = []) := by
  generalize hr : run up w environment deployer = r
  simp only [run, moduleLoaded, deployEcosystem, addMarketsIfLocal, fromArtifact, detectNetwork,
    link, linkContract, deployContract, callContract, consoleLogAddress, bind_assoc, pure_bind]
    at hr
  have hI := Inv.nil keepCallsDeploysFailures fun _ _ => True
  repeat' (first
    | (first
        | replace hr := issue_bind_inv (mono_true) hI hr false true
            (fun _ => rfl) (fun _ => rfl) (fun _ _ _ _ => trivial)
        | replace hr := issue_bind_inv (mono_true) hI hr true true
            (fun _ => rfl) (fun _ => rfl) (fun _ _ _ _ => trivial)
       clear hI
       rcases hr with ⟨v, t, hI, hr⟩ | ⟨e, t, hI, rfl⟩
       all_goals simp only [cond_true, cond_false, List.cons_append, List.nil_append,
         Nat.reduceAdd] at hI)
    | (replace hr := issueUnawaited_bind_inv (mono_true) hI hr false true
         (fun _ _ => rfl) (fun _ => rfl) (fun _ => (fun _ _ _ _ => trivial))
       clear hI
       rcases hr with ⟨p, v, t, hI, hr⟩ | ⟨e, t, hI, rfl⟩
       all_goals simp only [cond_true, cond_false, List.cons_append, List.nil_append,
         Nat.reduceAdd] at hI)
    | (rw [getGlobals_bind_run] at hr)
    | (rw [setGlobals_bind_run] at hr; dsimp only at hr)
    | (rw [address_contract_bind_run] at hr)
    | (replace hr := address_bind_cases hr; rcases hr with ⟨c, rfl, hr⟩ | ⟨rfl, rfl⟩)
    | (replace hr := ite_bind_cases hr
       simp only [bind_assoc, pure_bind] at hr
       rcases hr with ⟨hc, hr⟩ | ⟨hc, hr⟩)
    | (replace hr := ite_run_cases hr; rcases hr with ⟨hc, hr⟩ | ⟨hc, hr⟩)
    | (rw [pure_run] at hr; subst hr))
  all_goals
    obtain ⟨hl, hs, hf, -⟩ := hI
    refine ⟨?_, ?_⟩
    · intro henv hsucc
      first
      | exact (funded_not_local henv hc).elim
      | (exfalso; apply absurd henv; assumption)
      | exact ⟨rfl, _, rfl,
          (congrArg (List.map Event.op) (callsOf_of_kept hf _ keep_of_isCallOf)).trans rfl,
          (congrArg (List.map Event.op) (callsOf_of_kept hf _ keep_of_isCallOf)).trans rfl,
          (callsOf_of_kept hf _ keep_of_isCallOf).trans rfl⟩
      | (exfalso
         refine not_all_succeeded hf ?_ hsucc
         simp [Event.succeeded, Op.isDeployContract])
    · intro henv
      first
      | exact ⟨(callsOf_of_kept hf _ keep_of_isCallOf).trans rfl,
          (callsOf_of_kept hf _ keep_of_isCallOf).trans rfl⟩
      | (exfalso; apply henv; assumption)

/-- C3, witness: the controller deploy of a `LOCAL` run with collaborators that
never fail. -/
theorem controller_deploy_requires_prerequisites_witness :
    sampleControllerEvent ∈ sampleLocalTrace ∧
    sampleControllerEvent.op.isDeployOf "DmmController" = true ∧
    ControllerGuarded sampleLocalTrace sampleControllerEvent :=
  ⟨List.get_mem _ _ _, rfl, fun _ =>
    controller_deploy_requires_prerequisites sampleUpstream allSucceed "LOCAL" "0xD"
      sampleControllerEvent (List.get_mem _ _ _) rfl⟩

/-- C8, witness: the controller deploy of a `LOCAL` run with collaborators that
never fail, and its nine arguments. -/
theorem controller_constructor_arguments_witness :
    sampleControllerEvent ∈ sampleLocalTrace ∧
    sampleControllerEvent.op = .deployContract "DmmController"
      [.str "InterestRateImplV1", .str "ChainlinkCollateralValuator",
        .str "UnderlyingTokenValuatorImplV1", .str "DmmEtherFactory", .str "DmmTokenFactory",
        .str "DmmBlacklistable", .bn (10 ^ 18), .bn (5 * 10 ^ 17), .str "0xC02"]
      "0xD" 4000000 ∧
    ControllerArgs sampleUpstream sampleLocalTrace sampleControllerEvent :=
  ⟨List.get_mem _ _ _, rfl, fun _ _ _ h =>
    controller_constructor_arguments sampleUpstream allSucceed "LOCAL" "0xD"
      sampleControllerEvent (List.get_mem _ _ _) _ _ _ h⟩

/-- The number an event carries is its position in the trace, and the exported
object is never written: whatever the run does, it is the one built when the
module was loaded. -/
theorem run_seq_and_exports (up : Upstream) (w : World) (environment deployer : String) :
    (run up w environment deployer).2.trace.map Event.seq =
      List.range (run up w environment deployer).2.trace.length ∧
    (run up w environment deployer).2.exports = moduleLoaded.exports := by
  generalize hr : run up w environment deployer = r
  simp only [run, moduleLoaded, deployEcosystem, addMarketsIfLocal, fromArtifact, detectNetwork,
    link, linkContract, deployContract, callContract, consoleLogAddress, bind_assoc, pure_bind]
    at hr
  repeat' (first
    | (replace hr := issue_bind_cases hr
       simp only [List.length_cons, List.length_nil, List.nil_append, List.cons_append,
         Nat.reduceAdd] at hr
       rcases hr with ⟨v, hr⟩ | ⟨e, rfl⟩)
    | (replace hr := issueUnawaited_bind_cases hr
       simp only [List.length_cons, List.length_nil, List.nil_append, List.cons_append,
         Nat.reduceAdd] at hr
       rcases hr with ⟨p, v, hr⟩ | ⟨e, rfl⟩)
    | (rw [getGlobals_bind_run] at hr)
    | (rw [setGlobals_bind_run] at hr; dsimp only at hr)
    | (rw [address_contract_bind_run] at hr)
    | (replace hr := address_bind_cases hr; rcases hr with ⟨c, rfl, hr⟩ | ⟨rfl, rfl⟩)
    | (replace hr := ite_bind_cases hr
       simp only [bind_assoc, pure_bind] at hr
       rcases hr with ⟨hc, hr⟩ | ⟨hc, hr⟩)
    | (replace hr := ite_run_cases hr; rcases hr with ⟨hc, hr⟩ | ⟨hc, hr⟩)
    | (rw [pure_run] at hr; subst hr))
  all_goals exact ⟨rfl, rfl⟩

/-- C4, witness: a `TESTNET` run with collaborators that never fail. -/
theorem funding_only_testnet_production_witness :
    (("TESTNET" = "TESTNET" ∨ "TESTNET" = "PRODUCTION") ∧
      ∀ ev ∈ sampleTestnetTrace, ev.succeeded = true) ∧
    ((run sampleUpstream allSucceed "TESTNET" "0xD").1 = .ok () ∧
      ∃ c, (run sampleUpstream allSucceed "TESTNET" "0xD").2.globals.chainlinkCollateralValuator =
          .contract c ∧
        (callsOf "transfer" sampleTestnetTrace).map Event.op =
          [.callContract (.contract sampleUpstream.link) "transfer"
            [.str c.address, .bn (10 * 10 ^ 18)] "0xD" 300000] ∧
        (callsOf "getCollateralValue" sampleTestnetTrace).map Event.op =
          [.callContract (.contract c) "getCollateralValue" [(oracleConfig "TESTNET").1]
            "0xD" 1000000] ∧
        callsOf "addMarket" sampleTestnetTrace = []) :=
  ⟨⟨Or.inl rfl, List.all_eq_true.1 rfl⟩,
    (funding_only_testnet_production sampleUpstream allSucceed "TESTNET" "0xD").1 (Or.inl rfl)
      (List.all_eq_true.1 rfl)⟩

/-- C5, witness: the `addMarket` calls of a `LOCAL` run with collaborators that
never fail; each follows the completed `transferOwnership`. -/
theorem markets_only_local_after_ownership_witness :
    ((callsOf "addMarket" sampleLocalTrace).length = 2 ∧
      ∀ ev ∈ callsOf "addMarket" sampleLocalTrace,
        ev ∈ sampleLocalTrace ∧ ev.op.isCallOf "addMarket" = true) ∧
    ∀ ev ∈ callsOf "addMarket" sampleLocalTrace, MarketAfterOwnership "0xD" sampleLocalTrace ev :=
  ⟨⟨rfl, fun _ hev => List.mem_filter.1 hev⟩, fun ev hev _ =>
    (markets_only_local_after_ownership sampleUpstream allSucceed "LOCAL" "0xD").2.2.2.1 ev
      (List.mem_filter.1 hev).1 (List.mem_filter.1 hev).2⟩

/-- C6, witness: a `LOCAL` run with collaborators that never fail completes, and
registers the two markets. -/
theorem two_markets_in_order_witness :
    ("LOCAL" = "LOCAL" ∧ (run sampleUpstream allSucceed "LOCAL" "0xD").1 = .ok ()) ∧
    ∃ c, (run sampleUpstream allSucceed "LOCAL" "0xD").2.globals.dmmController = .contract c ∧
      (callsOf "addMarket" sampleLocalTrace).map Event.op =
        [addMarketDai sampleUpstream (.contract c) "0xD",
          addMarketUsdc sampleUpstream (.contract c) "0xD"] :=
  ⟨⟨rfl, rfl⟩, (two_markets_in_order sampleUpstream allSucceed "LOCAL" "0xD").1 rfl rfl⟩

/-- C7, witness: the collateral valuator deploy of a `TESTNET` run. -/
theorem oracle_config_by_environment_witness :
    (sampleTestnetTrace.get ⟨14, by decide⟩ ∈ sampleTestnetTrace ∧
      (sampleTestnetTrace.get ⟨14, by decide⟩).op =
        .deployContract "ChainlinkCollateralValuator"
          [.str "0x514", .bn (10 ^ 17),
            .str "0x00000000000000000000000000000000d4b380b30cb64722b8843ead232985c3"]
          "0xD" 4000000) ∧
    [Arg.str "0x514", .bn (10 ^ 17),
        .str "0x00000000000000000000000000000000d4b380b30cb64722b8843ead232985c3"] =
      [.str sampleUpstream.link.address, .bn (10 ^ 17), (oracleConfig "TESTNET").2] :=
  ⟨⟨List.get_mem _ _ _, rfl⟩,
    (oracle_config_by_environment.2.2.2 sampleUpstream allSucceed "TESTNET" "0xD"
      (sampleTestnetTrace.get ⟨14, by decide⟩) (List.get_mem _ _ _)).1 _ "0xD" 4000000 rfl⟩

end DeployEcosystem
